import Mathlib

/-
Verification development for the JATS automated trading system.

The Python sources are shallowly embedded in Lean: prices, balances and
percentages become rationals, share quantities and calendar dates become
integers, and the stateful trader methods become explicit state-passing
functions returning the successor state together with the list of orders
they place.  Floating-point arithmetic of the source is modelled by exact
rational arithmetic.
-/

namespace JATS

/-- Python `int(...)` truncation toward zero on an exact rational. -/
def pyInt (q : ℚ) : ℤ := if 0 ≤ q then ⌊q⌋ else ⌈q⌉

/-- Sequential accumulation loop: `pyScan f a [v1, v2, ...]` returns the
successive accumulator values `[a, f a v1, f (f a v1) v2, ...]`.  This is the
shape of the index-by-index update loops in `calculate_rsi` and of the
`ewm(adjust=False)` recurrence in `calculate_macd`. -/
def pyScan (f : ℚ → ℚ → ℚ) (a : ℚ) : List ℚ → List ℚ
  | [] => [a]
  | v :: vs => a :: pyScan f (f a v) vs

/-- The values `[vals start, vals (start+1), ..., vals (start+n-1)]`. -/
def tailFrom (vals : Nat → ℚ) (start : Nat) : Nat → List ℚ
  | 0 => []
  | n + 1 => vals start :: tailFrom vals (start + 1) n

/-! ## Indicator engine (`UpbitAnalyzer` / `KisAnalyzer`)

`calculate_rsi` and `calculate_macd` are identical in `src/upbit/analyzer.py`
and `src/kis/analyzer.py`; they are embedded once.  The close column of the
candle dataframe is a `List ℚ`. -/

/-- Per-bar gain: `delta.where(delta > 0, 0)` with `delta = close.diff()`.
Pandas leaves `delta` undefined at index 0, and the `where` turns that into 0. -/
def gainAt (closes : List ℚ) (i : Nat) : ℚ :=
  if i = 0 then 0 else max (closes.getD i 0 - closes.getD (i - 1) 0) 0

/-- Per-bar loss: `-delta.where(delta < 0, 0)`. -/
def lossAt (closes : List ℚ) (i : Nat) : ℚ :=
  if i = 0 then 0 else max (closes.getD (i - 1) 0 - closes.getD i 0) 0

/-- The SMA seed written at index `period`:
`gain.iloc[1:period+1].mean()`, i.e. the mean of indices `1 .. period`. -/
def seedAvg (vals : Nat → ℚ) (period : Nat) : ℚ :=
  ((List.range period).map (fun i => vals (i + 1))).sum / period

/-- One step of Wilder smoothing:
`(avg_prev * (period-1) + value) / period`. -/
def wilderStep (period : Nat) (avg v : ℚ) : ℚ :=
  (avg * ((period : ℚ) - 1) + v) / period

/-- The `avg_gain` column of `calculate_rsi`, restricted to the indices
`period .. N-1` where the source defines it (seed at `period`, then the
Wilder loop); entry `k` of the list is the value at dataframe index
`period + k`. -/
def avgGainList (closes : List ℚ) (period : Nat) : List ℚ :=
  pyScan (wilderStep period) (seedAvg (gainAt closes) period)
    (tailFrom (gainAt closes) (period + 1) (closes.length - (period + 1)))

/-- The `avg_loss` column of `calculate_rsi`, same indexing as `avgGainList`. -/
def avgLossList (closes : List ℚ) (period : Nat) : List ℚ :=
  pyScan (wilderStep period) (seedAvg (lossAt closes) period)
    (tailFrom (lossAt closes) (period + 1) (closes.length - (period + 1)))

/-- The `rsi` column produced by `calculate_rsi`, on the indices
`period .. N-1`: `rs = avg_gain / avg_loss` and `rsi = 100 - 100/(1+rs)`. -/
def calculate_rsi (closes : List ℚ) (period : Nat) : List ℚ :=
  List.zipWith (fun g l => 100 - 100 / (1 + g / l))
    (avgGainList closes period) (avgLossList closes period)

/-- One step of `ewm(span=span, adjust=False).mean()`:
`ema_prev + (2/(span+1)) * (value - ema_prev)`. -/
def emaStep (span : Nat) (e v : ℚ) : ℚ :=
  e + 2 / ((span : ℚ) + 1) * (v - e)

/-- `series.ewm(span=span, adjust=False).mean()`: the first output equals the
first input, each later output follows the `emaStep` recurrence. -/
def ema (span : Nat) : List ℚ → List ℚ
  | [] => []
  | x :: xs => pyScan (emaStep span) x xs

/-- `calculate_macd`: returns the `macd`, `macd_signal` and `macd_hist`
columns (macd line, signal line, histogram). -/
def calculate_macd (closes : List ℚ) (fast slow signalSpan : Nat) :
    List ℚ × List ℚ × List ℚ :=
  let macdLine := List.zipWith (fun a b => a - b) (ema fast closes) (ema slow closes)
  let signalLine := ema signalSpan macdLine
  (macdLine, signalLine, List.zipWith (fun a b => a - b) macdLine signalLine)

/-! ## Signal generator (`generate_signals`)

Identical in `src/upbit/analyzer.py` and `src/kis/analyzer.py`.  The signal
generator reads only the last two indicator rows of the dataframe. -/

/-- The indicator columns of one dataframe row that `generate_signals` reads. -/
structure IndicatorRow where
  rsi : ℚ
  macd : ℚ
  macd_signal : ℚ
  ma5 : ℚ
  ma20 : ℚ
deriving DecidableEq

/-- The dictionary of flags returned by `generate_signals`. -/
structure SignalSet where
  buy : Bool
  sell : Bool
  strong_buy : Bool
  strong_sell : Bool
deriving DecidableEq

/-- The RSI if/elif block of `generate_signals`. -/
def rsi_block (c : IndicatorRow) (s : SignalSet) : SignalSet :=
  if c.rsi < 30 then { s with buy := true }
  else if c.rsi > 70 then { s with sell := true }
  else s

/-- The MACD-cross if/elif block of `generate_signals`. -/
def macd_block (c p : IndicatorRow) (s : SignalSet) : SignalSet :=
  if c.macd > c.macd_signal ∧ p.macd ≤ p.macd_signal then { s with buy := true }
  else if c.macd < c.macd_signal ∧ p.macd ≥ p.macd_signal then { s with sell := true }
  else s

/-- The moving-average-cross if/elif block of `generate_signals`. -/
def ma_block (c p : IndicatorRow) (s : SignalSet) : SignalSet :=
  if c.ma5 > c.ma20 ∧ p.ma5 ≤ p.ma20 then { s with buy := true }
  else if c.ma5 < c.ma20 ∧ p.ma5 ≥ p.ma20 then { s with sell := true }
  else s

/-- The strong-signal blocks of `generate_signals`. -/
def strong_block (c : IndicatorRow) (s : SignalSet) : SignalSet :=
  let s4 :=
    if c.rsi < 30 ∧ c.macd > c.macd_signal ∧ c.ma5 > c.ma20 then
      { s with strong_buy := true }
    else s
  if c.rsi > 70 ∧ c.macd < c.macd_signal ∧ c.ma5 < c.ma20 then
    { s4 with strong_sell := true }
  else s4

/-- `generate_signals(df)` on the last row `current` and the second-to-last
row `previous`: all flags start `False`, then the four source blocks run in
order. -/
def generate_signals (current previous : IndicatorRow) : SignalSet :=
  strong_block current
    (ma_block current previous
      (macd_block current previous
        (rsi_block current ⟨false, false, false, false⟩)))

/-! ## Notifier (`TelegramNotifier`, `src/util/telegram_bot.py`)

Clock times are modelled as seconds of the day; the configured quiet-hours
bounds come from strings of minute granularity, the current time may carry
seconds.  Python compares `datetime.time` values lexicographically, which on
a single day coincides with comparing seconds of the day. -/

/-- `TelegramNotifier._is_quiet_time`, with `is_shutdown_message` passed
explicitly (the source stores it on `self` right before the check). -/
def is_quiet_time (isShutdownMessage : Bool) (quietStart quietEnd now : Nat) : Bool :=
  if isShutdownMessage then false
  else if quietEnd < quietStart then decide (quietStart ≤ now) || decide (now ≤ quietEnd)
  else decide (quietStart ≤ now) && decide (now ≤ quietEnd)

/-- Observable outcome of `TelegramNotifier.send_message`: returned `False`
because notifications are disabled, returned `False` because of quiet hours
without attempting delivery, or reached the HTTP request. -/
inductive SendOutcome where
  | disabledOut
  | quietSuppressed
  | attempted
deriving DecidableEq

/-- `TelegramNotifier.send_message(message, is_shutdown)` up to the point
where the HTTP request is issued. -/
def send_message (enabled isShutdown : Bool) (quietStart quietEnd now : Nat) :
    SendOutcome :=
  if !enabled then .disabledOut
  else if is_quiet_time isShutdown quietStart quietEnd now && !isShutdown then
    .quietSuppressed
  else .attempted

/-! ## Upbit trader (`src/upbit/trader.py`)

The trader owns a single position record; an empty `market` string means no
position is held, exactly as in the source. -/

/-- `self.position` of `UpbitTrader`. -/
structure UpbitPosition where
  market : String
  entry_price : ℚ
  amount : ℚ
  top_price : ℚ
  entry_time : Option ℤ
deriving DecidableEq

/-- The position-carrying state of `UpbitTrader`. -/
structure UpbitState where
  position : UpbitPosition
deriving DecidableEq

/-- Orders the Upbit trader submits: a market buy is a notional-amount bid. -/
inductive UAction where
  | orderBid (market : String) (price : ℚ)
deriving DecidableEq

/-- `UpbitTrader.position_entered(market, price, amount)`: `top_price` starts
at the entry price. -/
def position_entered (s : UpbitState) (market : String) (price amount : ℚ)
    (now : ℤ) : UpbitState :=
  { s with position := ⟨market, price, amount, price, some now⟩ }

/-- `UpbitTrader.buy(market)`.  `krw_balance` is the fetched KRW balance and
`fill` is the order-status poll outcome: `some (avg_price, executed_volume)`
when the order reports `done` within the bounded wait, `none` otherwise.
Returns the successor state and the submitted orders. -/
def upbit_buy (s : UpbitState) (market : String) (krw_balance : ℚ)
    (fill : Option (ℚ × ℚ)) (now : ℤ) : UpbitState × List UAction :=
  if s.position.market ≠ "" then (s, [])
  else
    let buy_amount := krw_balance * (9 / 10)
    if buy_amount < 5000 then (s, [])
    else
      match fill with
      | some (avg_price, executed_volume) =>
          (position_entered s market avg_price executed_volume now,
           [.orderBid market buy_amount])
      | none => (s, [.orderBid market buy_amount])

/-- Modelled from the spec: the body of `UpbitAnalyzer.check_stop_loss_condition`
is called from `UpbitTrader.run` (src/upbit/trader.py line 111) but is not
among the provided source files.  Following section 4.4 of the specification,
the risk gate is a pure function of the position and the current price: the
base stop-loss fires when the profit relative to the entry price is at most
`-stop_loss_percent`, the trailing stop fires when the drawdown from the
high-water mark is at most `-stop_loss_percent_high`, and either firing
commands an exit. -/
def check_stop_loss_condition (stopLossPercent stopLossPercentHigh : ℚ)
    (entryPrice topPrice currentPrice : ℚ) : Bool :=
  decide ((currentPrice - entryPrice) / entryPrice * 100 ≤ -stopLossPercent)
  || decide ((currentPrice - topPrice) / topPrice * 100 ≤ -stopLossPercentHigh)

/-- The 10-second branch of `UpbitTrader.run`: with a position held, the stop
condition is evaluated and, when it fires, `sell` is invoked; the returned
Boolean says whether the sell was invoked. -/
def upbit_tick_10s (s : UpbitState) (stopLossPercent stopLossPercentHigh
    currentPrice : ℚ) : Bool :=
  decide (s.position.market ≠ "")
  && check_stop_loss_condition stopLossPercent stopLossPercentHigh
       s.position.entry_price s.position.top_price currentPrice

/-! ## KIS trader (`src/kis/trader.py`)

The trader keeps a dictionary of positions, rebuilt from the authoritative
account balance.  Orders are modelled as succeeding immediately: a filled buy
adds the bought quantity to the balance, a filled sell removes the holding.
Balance rows and positions are keyed by the stock symbol. -/

/-- One row of the account-balance response (`output2` of
`get_account_balance`): holding quantity, purchase average price and the
current price of a symbol. -/
structure Holding where
  symbol : String
  quantity : ℤ
  avg_price : ℤ
  current_price : ℤ
deriving DecidableEq

/-- One entry of `self.positions` as built by `update_domestic_positions`. -/
structure KisPosition where
  symbol : String
  quantity : ℤ
  avg_price : ℤ
  current_price : ℤ
  profit_percent : ℚ
deriving DecidableEq

/-- The position entry derived from a balance row:
`profit_percent = (current_price - avg_price) / avg_price * 100`. -/
def toPosition (h : Holding) : KisPosition :=
  { symbol := h.symbol, quantity := h.quantity, avg_price := h.avg_price,
    current_price := h.current_price,
    profit_percent := ((h.current_price : ℚ) - h.avg_price) / h.avg_price * 100 }

/-- The mutable state of `KisTrader` together with the authoritative exchange
balance it reconciles against, and the risk-configuration values loaded in
`__init__`. -/
structure KisState where
  holdings : List Holding
  positions : List KisPosition
  daily_loss : ℚ
  last_reset_date : ℤ
  stop_loss_percent : ℚ
  max_investment_per_trade : ℚ
  max_daily_loss : ℚ
deriving DecidableEq

/-- `KisTrader.reset_daily_stats`: clears `daily_loss` and advances
`last_reset_date` only when the wall-clock date is strictly past the stored
one. -/
def reset_daily_stats (today : ℤ) (s : KisState) : KisState :=
  if s.last_reset_date < today then
    { s with daily_loss := 0, last_reset_date := today }
  else s

/-- `KisTrader.update_domestic_positions`: rebuilds `self.positions` from the
balance, keeping rows with positive quantity. -/
def update_domestic_positions (s : KisState) : KisState :=
  { s with positions := (s.holdings.filter (fun h => 0 < h.quantity)).map toPosition }

/-- The reason string attached to a stop-loss sell. -/
def stopLossReason : String := "stop_loss"

/-- Orders issued by the KIS trader. -/
inductive Action where
  | buyOrder (symbol : String) (quantity : ℤ)
  | sellOrder (symbol : String) (quantity : ℤ) (reason : String)
deriving DecidableEq

/-- Whether an order is a buy. -/
def Action.isBuy : Action → Bool
  | .buyOrder _ _ => true
  | .sellOrder _ _ _ => false

/-- `KisTrader.sell_domestic_stock(symbol, quantity, reason)` with the order
filling: if the symbol is among the positions and its profit is negative,
`daily_loss` grows by `abs(current_price - avg_price) * quantity`; the
holding leaves the balance and the positions are rebuilt from it. -/
def sell_domestic_stock (s : KisState) (symbol : String) (quantity : ℤ)
    (reason : String) : KisState × Action :=
  let dl :=
    match s.positions.find? (fun p => p.symbol == symbol) with
    | some p =>
        if p.profit_percent < 0 then
          s.daily_loss + |((p.current_price : ℚ) - p.avg_price)| * quantity
        else s.daily_loss
    | none => s.daily_loss
  let s2 := update_domestic_positions
    { s with daily_loss := dl,
             holdings := s.holdings.filter (fun h => h.symbol ≠ symbol) }
  (s2, .sellOrder symbol quantity reason)

/-- One iteration of the `check_stop_loss` loop: sell the position when its
profit is at or below `-stop_loss_percent`. -/
def stop_loss_step (acc : KisState × List Action) (p : KisPosition) :
    KisState × List Action :=
  if p.profit_percent ≤ -acc.1.stop_loss_percent then
    let r := sell_domestic_stock acc.1 p.symbol p.quantity stopLossReason
    (r.1, acc.2 ++ [r.2])
  else acc

/-- `KisTrader.check_stop_loss`: iterates over a snapshot of the positions
(`list(self.positions.items())`) and sells every one whose loss meets the
base stop-loss threshold. -/
def check_stop_loss (s : KisState) : KisState × List Action :=
  s.positions.foldl stop_loss_step (s, [])

/-- `KisTrader.buy_domestic_stock(symbol, 0, quantity)` with a market-order
fill at `fillPrice`: the balance gains the new holding and the positions are
rebuilt from it. -/
def buy_domestic_stock (s : KisState) (symbol : String) (quantity fillPrice : ℤ) :
    KisState × Action :=
  let s2 := update_domestic_positions
    { s with holdings := s.holdings ++ [⟨symbol, quantity, fillPrice, fillPrice⟩] }
  (s2, .buyOrder symbol quantity)

/-- The part of the per-symbol analysis (`analyze_domestic_stock`) that the
strategy loop reads: the current price and the signal flags. -/
structure AnalysisResult where
  price : ℤ
  signals : SignalSet
deriving DecidableEq

/-- The loop body of `run_domestic_trading_strategy` for one symbol: skip a
symbol already held; on `strong_buy` size with the full
`max_investment_per_trade`, on plain `buy` with half of it; order quantity is
the truncated quotient by the current price and nothing is ordered when it is
not positive. -/
def trade_symbol (s : KisState) (a : AnalysisResult) (symbol : String) :
    KisState × List Action :=
  if (s.positions.find? (fun p => p.symbol == symbol)).isSome then (s, [])
  else if a.signals.strong_buy then
    let quantity := pyInt (s.max_investment_per_trade / (a.price : ℚ))
    if 0 < quantity then
      let r := buy_domestic_stock s symbol quantity a.price
      (r.1, [r.2])
    else (s, [])
  else if a.signals.buy then
    let quantity := pyInt (s.max_investment_per_trade * (1 / 2) / (a.price : ℚ))
    if 0 < quantity then
      let r := buy_domestic_stock s symbol quantity a.price
      (r.1, [r.2])
    else (s, [])
  else (s, [])

/-- `KisTrader.run_domestic_trading_strategy(symbols)`: reset daily stats,
refresh positions from the balance, run the stop-loss check, and only when
`daily_loss` is still below `max_daily_loss` analyse the symbols and place
buy orders.  `analysis` supplies the per-symbol analyzer output. -/
def run_domestic_trading_strategy (today : ℤ) (symbols : List String)
    (analysis : String → AnalysisResult) (s : KisState) :
    KisState × List Action :=
  let s1 := reset_daily_stats today s
  let s2 := update_domestic_positions s1
  let r := check_stop_loss s2
  if r.1.max_daily_loss ≤ r.1.daily_loss then r
  else
    symbols.foldl
      (fun acc symbol =>
        let t := trade_symbol acc.1 (analysis symbol) symbol
        (t.1, acc.2 ++ t.2))
      r

/-! ## Concrete example inputs used by the closed instance theorems -/

/-- An analyzer output reporting a strong buy at price 100 for every symbol. -/
def c1Analysis : String → AnalysisResult := fun _ => ⟨100, ⟨true, false, true, false⟩⟩

/-- A KIS trader state holding nothing, with the default risk configuration. -/
def c1FlatState : KisState := ⟨[], [], 0, 0, 3, 100000, 50000⟩

/-- An Upbit trader state with an open position. -/
def c1OpenUpbit : UpbitState := ⟨⟨"KRW-BTC", 100, 1, 110, some 0⟩⟩

/-- A KIS trader state already holding symbol 005930. -/
def c1HeldKis : KisState :=
  ⟨[⟨"005930", 10, 100, 100⟩], [⟨"005930", 10, 100, 100, 0⟩], 0, 0, 3, 100000, 50000⟩

/-- A strong-buy analysis row at price 100. -/
def c1Strong : AnalysisResult := ⟨100, ⟨true, false, true, false⟩⟩

/-- A market name used when exercising the Upbit buy guard. -/
def c1Market : String := "KRW-ETH"

/-- The symbol already held in `c1HeldKis`. -/
def c1Symbol : String := "005930"

/-- An Upbit position entered at 100 whose high-water mark reached 110. -/
def c2Position : UpbitState := ⟨⟨"KRW-BTC", 100, 10, 110, some 0⟩⟩

/-- An analyzer output reporting a strong buy at price 100 for every symbol. -/
def c3Analysis : String → AnalysisResult := fun _ => ⟨100, ⟨true, false, true, false⟩⟩

/-- A KIS state at the daily loss cap with one losing holding on the books. -/
def c3State : KisState := ⟨[⟨"005930", 10, 100, 90⟩], [], 50000, 0, 3, 100000, 50000⟩

/-- A small close-price series for the RSI instance. -/
def c4Closes : List ℚ := [100, 101, 103, 102]

/-- A flat Upbit trader state. -/
def c6Flat : UpbitState := ⟨⟨"", 0, 0, 0, none⟩⟩

/-- The market bought in the Upbit sizing instance. -/
def c6Market : String := "KRW-BTC"

/-- A KIS trader state holding nothing, with the default risk configuration. -/
def c6KisFlat : KisState := ⟨[], [], 0, 0, 3, 100000, 50000⟩

/-- A strong-buy analysis row at price 100. -/
def c6Strong : AnalysisResult := ⟨100, ⟨true, false, true, false⟩⟩

/-- The symbol bought in the KIS sizing instance. -/
def c6Symbol : String := "005930"

/-- A small close-price series for the MACD instance. -/
def c7Closes : List ℚ := [1, 2, 4]

/-- A KIS state whose anchor date lies strictly before day 5. -/
def c8State : KisState := ⟨[], [], 123, 4, 3, 100000, 50000⟩

/-- An indicator row with oversold RSI, positive MACD gap and MA5 above MA20. -/
def c10Current : IndicatorRow := ⟨20, 5, 1, 10, 5⟩

/-- A neutral previous indicator row. -/
def c10Previous : IndicatorRow := ⟨50, 0, 0, 5, 5⟩

/-! ## Library lemmas about the loop combinators -/

lemma pyScan_length (f : ℚ → ℚ → ℚ) (a : ℚ) (l : List ℚ) :
    (pyScan f a l).length = l.length + 1 := by
  induction l generalizing a with
  | nil => rfl
  | cons v vs ih => simp [pyScan, ih]

lemma pyScan_getD_zero (f : ℚ → ℚ → ℚ) (a : ℚ) (l : List ℚ) :
    (pyScan f a l).getD 0 0 = a := by
  cases l <;> rfl

lemma pyScan_getD_succ (f : ℚ → ℚ → ℚ) (a : ℚ) (l : List ℚ) (k : Nat)
    (hk : k < l.length) :
    (pyScan f a l).getD (k + 1) 0 = f ((pyScan f a l).getD k 0) (l.getD k 0) := by
  induction l generalizing a k with
  | nil => simp at hk
  | cons v vs ih =>
    cases k with
    | zero =>
      rw [show pyScan f a (v :: vs) = a :: pyScan f (f a v) vs from rfl]
      simp only [List.getD_cons_succ, List.getD_cons_zero]
      rw [pyScan_getD_zero]
    | succ m =>
      have hm : m < vs.length := by simpa using hk
      have := ih (f a v) m hm
      rw [show pyScan f a (v :: vs) = a :: pyScan f (f a v) vs from rfl]
      simpa only [List.getD_cons_succ] using this

lemma tailFrom_length (vals : Nat → ℚ) (start n : Nat) :
    (tailFrom vals start n).length = n := by
  induction n generalizing start with
  | zero => rfl
  | succ m ih => simp [tailFrom, ih]

lemma tailFrom_getD (vals : Nat → ℚ) (start n k : Nat) (hk : k < n) :
    (tailFrom vals start n).getD k 0 = vals (start + k) := by
  induction n generalizing start k with
  | zero => simp at hk
  | succ m ih =>
    cases k with
    | zero => simp [tailFrom]
    | succ j =>
      have hj : j < m := by omega
      have := ih (start + 1) j hj
      simpa [tailFrom, Nat.add_assoc, Nat.add_comm 1 j] using this

lemma zipWith_getD (f : ℚ → ℚ → ℚ) (a b : List ℚ) (k : Nat)
    (ha : k < a.length) (hb : k < b.length) :
    (List.zipWith f a b).getD k 0 = f (a.getD k 0) (b.getD k 0) := by
  induction a generalizing b k with
  | nil => simp at ha
  | cons x xs ih =>
    cases b with
    | nil => simp at hb
    | cons y ys =>
      cases k with
      | zero => simp
      | succ j =>
        have hxa : j < xs.length := by simpa using ha
        have hyb : j < ys.length := by simpa using hb
        simpa using ih ys j hxa hyb

lemma range_map_sum (vals : Nat → ℚ) :
    ∀ n : Nat, ((List.range n).map (fun i => vals (i + 1))).sum
      = ∑ i in Finset.Icc 1 n, vals i := by
  intro n
  induction n with
  | zero => simp
  | succ m ih =>
    rw [List.range_succ, List.map_append, List.sum_append,
      Finset.sum_Icc_succ_top (by omega : 1 ≤ m + 1)]
    simp [ih]

/-! ## Lemmas about the indicator engine -/

lemma avgGainList_length (closes : List ℚ) (period : Nat) :
    (avgGainList closes period).length = closes.length - (period + 1) + 1 := by
  unfold avgGainList
  rw [pyScan_length, tailFrom_length]

lemma avgLossList_length (closes : List ℚ) (period : Nat) :
    (avgLossList closes period).length = closes.length - (period + 1) + 1 := by
  unfold avgLossList
  rw [pyScan_length, tailFrom_length]

lemma ema_length (span : Nat) (l : List ℚ) : (ema span l).length = l.length := by
  cases l with
  | nil => rfl
  | cons x xs => simp [ema, pyScan_length]

lemma ema_getD_zero (span : Nat) (l : List ℚ) (h : l ≠ []) :
    (ema span l).getD 0 0 = l.getD 0 0 := by
  cases l with
  | nil => simp at h
  | cons x xs =>
    rw [show ema span (x :: xs) = pyScan (emaStep span) x xs from rfl, pyScan_getD_zero]
    rfl

lemma ema_getD_succ (span : Nat) (l : List ℚ) (k : Nat) (hk : k + 1 < l.length) :
    (ema span l).getD (k + 1) 0
      = emaStep span ((ema span l).getD k 0) (l.getD (k + 1) 0) := by
  cases l with
  | nil => simp at hk
  | cons x xs =>
    have hk2 : k < xs.length := by simpa using hk
    simpa [ema] using pyScan_getD_succ (emaStep span) x xs k hk2

/-! ## Lemmas about the signal generator -/

lemma rsi_block_buy (c : IndicatorRow) (s : SignalSet) :
    (rsi_block c s).buy = (s.buy || decide (c.rsi < 30)) := by
  unfold rsi_block; split_ifs <;> simp_all

lemma rsi_block_sell (c : IndicatorRow) (s : SignalSet) :
    (rsi_block c s).sell = (s.sell || decide (c.rsi > 70)) := by
  unfold rsi_block
  split_ifs with h1 h2 <;> simp_all
  intro h; linarith

lemma rsi_block_strong (c : IndicatorRow) (s : SignalSet) :
    (rsi_block c s).strong_buy = s.strong_buy
      ∧ (rsi_block c s).strong_sell = s.strong_sell := by
  unfold rsi_block; split_ifs <;> simp_all

lemma macd_block_buy (c p : IndicatorRow) (s : SignalSet) :
    (macd_block c p s).buy
      = (s.buy || decide (c.macd > c.macd_signal ∧ p.macd ≤ p.macd_signal)) := by
  unfold macd_block; split_ifs <;> simp_all

lemma macd_block_sell (c p : IndicatorRow) (s : SignalSet) :
    (macd_block c p s).sell
      = (s.sell || decide (c.macd < c.macd_signal ∧ p.macd ≥ p.macd_signal)) := by
  unfold macd_block
  split_ifs with h1 h2 <;> simp_all
  intro h; linarith

lemma macd_block_strong (c p : IndicatorRow) (s : SignalSet) :
    (macd_block c p s).strong_buy = s.strong_buy
      ∧ (macd_block c p s).strong_sell = s.strong_sell := by
  unfold macd_block; split_ifs <;> simp_all

lemma ma_block_buy (c p : IndicatorRow) (s : SignalSet) :
    (ma_block c p s).buy
      = (s.buy || decide (c.ma5 > c.ma20 ∧ p.ma5 ≤ p.ma20)) := by
  unfold ma_block; split_ifs <;> simp_all

lemma ma_block_sell (c p : IndicatorRow) (s : SignalSet) :
    (ma_block c p s).sell
      = (s.sell || decide (c.ma5 < c.ma20 ∧ p.ma5 ≥ p.ma20)) := by
  unfold ma_block
  split_ifs with h1 h2 <;> simp_all
  intro h; linarith

lemma ma_block_strong (c p : IndicatorRow) (s : SignalSet) :
    (ma_block c p s).strong_buy = s.strong_buy
      ∧ (ma_block c p s).strong_sell = s.strong_sell := by
  unfold ma_block; split_ifs <;> simp_all

lemma strong_block_buy_sell (c : IndicatorRow) (s : SignalSet) :
    (strong_block c s).buy = s.buy ∧ (strong_block c s).sell = s.sell := by
  unfold strong_block; split_ifs <;> simp_all

lemma strong_block_strong_buy (c : IndicatorRow) (s : SignalSet) :
    (strong_block c s).strong_buy
      = (s.strong_buy
          || decide (c.rsi < 30 ∧ c.macd > c.macd_signal ∧ c.ma5 > c.ma20)) := by
  unfold strong_block; split_ifs <;> simp_all

lemma strong_block_strong_sell (c : IndicatorRow) (s : SignalSet) :
    (strong_block c s).strong_sell
      = (s.strong_sell
          || decide (c.rsi > 70 ∧ c.macd < c.macd_signal ∧ c.ma5 < c.ma20)) := by
  unfold strong_block; split_ifs <;> simp_all

lemma generate_signals_buy_iff (c p : IndicatorRow) :
    (generate_signals c p).buy = true ↔
      (c.rsi < 30 ∨ (c.macd > c.macd_signal ∧ p.macd ≤ p.macd_signal)
        ∨ (c.ma5 > c.ma20 ∧ p.ma5 ≤ p.ma20)) := by
  unfold generate_signals
  rw [(strong_block_buy_sell c _).1, ma_block_buy, macd_block_buy, rsi_block_buy]
  simp [or_assoc]

lemma generate_signals_sell_iff (c p : IndicatorRow) :
    (generate_signals c p).sell = true ↔
      (c.rsi > 70 ∨ (c.macd < c.macd_signal ∧ p.macd ≥ p.macd_signal)
        ∨ (c.ma5 < c.ma20 ∧ p.ma5 ≥ p.ma20)) := by
  unfold generate_signals
  rw [(strong_block_buy_sell c _).2, ma_block_sell, macd_block_sell, rsi_block_sell]
  simp [or_assoc]

lemma generate_signals_strong_buy_iff (c p : IndicatorRow) :
    (generate_signals c p).strong_buy = true ↔
      (c.rsi < 30 ∧ c.macd > c.macd_signal ∧ c.ma5 > c.ma20) := by
  unfold generate_signals
  rw [strong_block_strong_buy, (ma_block_strong c p _).1, (macd_block_strong c p _).1,
    (rsi_block_strong c _).1]
  simp

lemma generate_signals_strong_sell_iff (c p : IndicatorRow) :
    (generate_signals c p).strong_sell = true ↔
      (c.rsi > 70 ∧ c.macd < c.macd_signal ∧ c.ma5 < c.ma20) := by
  unfold generate_signals
  rw [strong_block_strong_sell, (ma_block_strong c p _).2, (macd_block_strong c p _).2,
    (rsi_block_strong c _).2]
  simp

/-! ## Lemmas about the KIS trader -/

lemma sell_preserves_limits (s : KisState) (symbol : String) (quantity : ℤ)
    (reason : String) :
    (sell_domestic_stock s symbol quantity reason).1.max_daily_loss = s.max_daily_loss
    ∧ (sell_domestic_stock s symbol quantity reason).1.stop_loss_percent
        = s.stop_loss_percent := by
  unfold sell_domestic_stock update_domestic_positions
  constructor <;> rfl

lemma sell_daily_loss_mono (s : KisState) (symbol : String) (quantity : ℤ)
    (reason : String) (hq : 0 ≤ quantity) :
    s.daily_loss ≤ (sell_domestic_stock s symbol quantity reason).1.daily_loss := by
  unfold sell_domestic_stock update_domestic_positions
  dsimp only
  cases hfind : s.positions.find? (fun p => p.symbol == symbol) with
  | none => simp
  | some p =>
      dsimp only
      split_ifs with h
      · have h1 : (0 : ℚ) ≤ |((p.current_price : ℚ) - p.avg_price)| := abs_nonneg _
        have h2 : (0 : ℚ) ≤ (quantity : ℚ) := by exact_mod_cast hq
        have h3 : (0 : ℚ) ≤ |((p.current_price : ℚ) - p.avg_price)| * quantity :=
          mul_nonneg h1 h2
        exact le_add_of_nonneg_right h3
      · simp

lemma stop_loss_fold_invariants (ps : List KisPosition)
    (hq : ∀ p ∈ ps, 0 ≤ p.quantity) :
    ∀ acc : KisState × List Action,
      acc.1.daily_loss ≤ (ps.foldl stop_loss_step acc).1.daily_loss
      ∧ (ps.foldl stop_loss_step acc).1.max_daily_loss = acc.1.max_daily_loss
      ∧ ∀ a ∈ (ps.foldl stop_loss_step acc).2, a ∈ acc.2 ∨ a.isBuy = false := by
  induction ps with
  | nil => intro acc; exact ⟨le_refl _, rfl, fun a ha => Or.inl ha⟩
  | cons p ps ih =>
    intro acc
    have hqp : 0 ≤ p.quantity := hq p (List.mem_cons_self p ps)
    have hqs : ∀ q ∈ ps, 0 ≤ q.quantity := fun q hq2 => hq q (List.mem_cons_of_mem p hq2)
    have hstep₁ : acc.1.daily_loss ≤ (stop_loss_step acc p).1.daily_loss := by
      unfold stop_loss_step
      split_ifs with h
      · exact sell_daily_loss_mono acc.1 p.symbol p.quantity stopLossReason hqp
      · exact le_refl _
    have hstep₂ : (stop_loss_step acc p).1.max_daily_loss = acc.1.max_daily_loss := by
      unfold stop_loss_step
      split_ifs with h
      · exact (sell_preserves_limits acc.1 p.symbol p.quantity stopLossReason).1
      · rfl
    have hstep₃ : ∀ a ∈ (stop_loss_step acc p).2, a ∈ acc.2 ∨ a.isBuy = false := by
      unfold stop_loss_step
      split_ifs with h
      · intro a ha
        rcases List.mem_append.mp ha with h1 | h1
        · exact Or.inl h1
        · rcases List.mem_singleton.mp h1 with rfl
          exact Or.inr rfl
      · intro a ha; exact Or.inl ha
    have hrest := ih hqs (stop_loss_step acc p)
    refine ⟨le_trans hstep₁ hrest.1, hrest.2.1.trans hstep₂, ?_⟩
    intro a ha
    rcases hrest.2.2 a ha with h1 | h1
    · exact hstep₃ a h1
    · exact Or.inr h1

lemma check_stop_loss_invariants (s : KisState)
    (hq : ∀ p ∈ s.positions, 0 ≤ p.quantity) :
    s.daily_loss ≤ (check_stop_loss s).1.daily_loss
    ∧ (check_stop_loss s).1.max_daily_loss = s.max_daily_loss
    ∧ ∀ a ∈ (check_stop_loss s).2, a.isBuy = false := by
  have h := stop_loss_fold_invariants s.positions hq (s, [])
  refine ⟨h.1, h.2.1, fun a ha => ?_⟩
  rcases h.2.2 a ha with h1 | h1
  · simp at h1
  · exact h1

lemma update_positions_nonneg (s : KisState) :
    ∀ p ∈ (update_domestic_positions s).positions, 0 ≤ p.quantity := by
  intro p hp
  unfold update_domestic_positions at hp
  simp only [List.mem_map, List.mem_filter] at hp
  obtain ⟨h, ⟨_, hpos⟩, rfl⟩ := hp
  have : 0 < h.quantity := by simpa using hpos
  exact le_of_lt (by simpa [toPosition] using this)

/-! ## Claim theorems -/

attribute [local semireducible] Rat.add Rat.mul Rat.sub Rat.inv Rat.ofScientific in
/-- Claim C1, counterexample: starting from a flat KIS trader state, one
`run_domestic_trading_strategy` pass over two strong-buy symbols leaves the
trader holding two open positions at once, so the system does not keep at
most one open position in every reachable state. -/
theorem kis_two_open_positions :
    ((run_domestic_trading_strategy 0 ["005930", "000660"] c1Analysis
        c1FlatState).1.positions).length = 2 := by
  decide

/-- Claim C1, amended: a buy attempt while the single Upbit position is open
places no order and leaves the trader state unchanged, and the KIS strategy
loop places no order for a symbol that is already among its positions (it
may still buy a different symbol while holding one). -/
theorem single_position_guards :
    (∀ (s : UpbitState) (market : String) (krw : ℚ) (fill : Option (ℚ × ℚ))
        (now : ℤ), s.position.market ≠ "" → upbit_buy s market krw fill now = (s, []))
    ∧ (∀ (s : KisState) (a : AnalysisResult) (symbol : String),
        (s.positions.find? (fun p => p.symbol == symbol)).isSome = true →
        trade_symbol s a symbol = (s, [])) := by
  constructor
  · intro s market krw fill now h
    unfold upbit_buy
    simp [h]
  · intro s a symbol h
    unfold trade_symbol
    simp [h]

/-- Claim C1, closed instance of the amended theorem: the guards fire on a
held Upbit position and on a held KIS symbol. -/
theorem single_position_guards_witness :
    upbit_buy c1OpenUpbit c1Market 1000000 none 0 = (c1OpenUpbit, [])
    ∧ trade_symbol c1HeldKis c1Strong c1Symbol = (c1HeldKis, []) :=
  ⟨single_position_guards.1 c1OpenUpbit c1Market 1000000 none 0 (by decide),
   single_position_guards.2 c1HeldKis c1Strong c1Symbol (by decide)⟩

/-- Claim C2: whenever the drawdown of the current price from the high-water
mark is at most `-stop_loss_percent_high`, the stop condition reports true for
any entry price and any base threshold, and the 10-second branch of the Upbit
run loop commands the sell for any open position. -/
theorem trailing_stop_triggers (stopLossPercent stopLossPercentHigh
    currentPrice : ℚ) (s : UpbitState) (hmkt : s.position.market ≠ "")
    (h : (currentPrice - s.position.top_price) / s.position.top_price * 100
        ≤ -stopLossPercentHigh) :
    check_stop_loss_condition stopLossPercent stopLossPercentHigh
        s.position.entry_price s.position.top_price currentPrice = true
    ∧ upbit_tick_10s s stopLossPercent stopLossPercentHigh currentPrice = true := by
  have h1 : check_stop_loss_condition stopLossPercent stopLossPercentHigh
      s.position.entry_price s.position.top_price currentPrice = true := by
    unfold check_stop_loss_condition
    rw [decide_eq_true h, Bool.or_true]
  refine ⟨h1, ?_⟩
  unfold upbit_tick_10s
  rw [h1, decide_eq_true hmkt, Bool.and_true]

attribute [local semireducible] Rat.add Rat.mul Rat.sub Rat.inv Rat.ofScientific in
/-- Claim C2, closed instance: a position entered at 100 with high-water mark
110 and current price 106 is sold by the trailing stop at threshold 2 even
though its absolute profit of 6 percent is far above the base threshold 3. -/
theorem trailing_stop_triggers_witness :
    upbit_tick_10s c2Position 3 2 106 = true
    ∧ ((106 : ℚ) - 100) / 100 * 100 = 6 ∧ ¬ ((6 : ℚ) ≤ -3) :=
  ⟨(trailing_stop_triggers 3 2 106 c2Position (by decide) (by decide)).2,
   by decide, by decide⟩

/-- Claim C3: when the calendar date has not advanced and `daily_loss` already
meets `max_daily_loss`, a strategy run consists exactly of the position
refresh and the stop-loss check on the open positions and it places no buy
order. -/
theorem daily_loss_cap_blocks_buys (today : ℤ) (symbols : List String)
    (analysis : String → AnalysisResult) (s : KisState)
    (hdate : ¬ s.last_reset_date < today)
    (hloss : s.max_daily_loss ≤ s.daily_loss) :
    run_domestic_trading_strategy today symbols analysis s
      = check_stop_loss (update_domestic_positions s)
    ∧ ∀ a ∈ (run_domestic_trading_strategy today symbols analysis s).2,
        a.isBuy = false := by
  have hreset : reset_daily_stats today s = s := by
    unfold reset_daily_stats
    rw [if_neg hdate]
  have hq := update_positions_nonneg s
  have hinv := check_stop_loss_invariants (update_domestic_positions s) hq
  have hdl : (update_domestic_positions s).daily_loss = s.daily_loss := rfl
  have hmx : (update_domestic_positions s).max_daily_loss = s.max_daily_loss := rfl
  have hgate : (check_stop_loss (update_domestic_positions s)).1.max_daily_loss
      ≤ (check_stop_loss (update_domestic_positions s)).1.daily_loss := by
    rw [hinv.2.1, hmx]
    calc s.max_daily_loss ≤ s.daily_loss := hloss
      _ = (update_domestic_positions s).daily_loss := hdl.symm
      _ ≤ _ := hinv.1
  have hrun : run_domestic_trading_strategy today symbols analysis s
      = check_stop_loss (update_domestic_positions s) := by
    unfold run_domestic_trading_strategy
    rw [hreset, if_pos hgate]
  exact ⟨hrun, by rw [hrun]; exact hinv.2.2⟩

/-- Claim C3, closed instance: at the loss cap the run still executes the
stop-loss pass over the refreshed positions (here selling the losing
holding) and nothing else. -/
theorem daily_loss_cap_blocks_buys_witness :
    run_domestic_trading_strategy 0 ["000660"] c3Analysis c3State
      = check_stop_loss (update_domestic_positions c3State) :=
  (daily_loss_cap_blocks_buys 0 ["000660"] c3Analysis c3State (by decide)
    (by decide)).1

/-- Claim C4: for a close series longer than the period, the average gain and
loss at index `period` are the simple means of the gains and losses at
indices 1 through `period`, every later index follows the Wilder recurrence
`avg = (avg_prev * (period - 1) + value) / period`, and each RSI output is
`100 - 100 / (1 + avg_gain / avg_loss)`.  Entry `k` of the embedded lists is
the dataframe value at index `period + k`. -/
theorem calculate_rsi_spec (closes : List ℚ) (period : Nat)
    (hper : 0 < period) (hlen : period < closes.length) :
    ((avgGainList closes period).getD 0 0
        = (∑ i in Finset.Icc 1 period, gainAt closes i) / period
      ∧ (avgLossList closes period).getD 0 0
        = (∑ i in Finset.Icc 1 period, lossAt closes i) / period)
    ∧ (∀ k : Nat, period + 1 + k < closes.length →
        (avgGainList closes period).getD (k + 1) 0
          = ((avgGainList closes period).getD k 0 * ((period : ℚ) - 1)
              + gainAt closes (period + 1 + k)) / period
        ∧ (avgLossList closes period).getD (k + 1) 0
          = ((avgLossList closes period).getD k 0 * ((period : ℚ) - 1)
              + lossAt closes (period + 1 + k)) / period)
    ∧ (∀ k : Nat, k < (calculate_rsi closes period).length →
        (calculate_rsi closes period).getD k 0
          = 100 - 100 / (1 + (avgGainList closes period).getD k 0
              / (avgLossList closes period).getD k 0)) := by
  refine ⟨⟨?_, ?_⟩, ?_, ?_⟩
  · unfold avgGainList
    rw [pyScan_getD_zero]
    unfold seedAvg
    rw [range_map_sum]
  · unfold avgLossList
    rw [pyScan_getD_zero]
    unfold seedAvg
    rw [range_map_sum]
  · intro k hk
    have hk2 : k < (tailFrom (gainAt closes) (period + 1)
        (closes.length - (period + 1))).length := by
      rw [tailFrom_length]; omega
    have hk3 : k < (tailFrom (lossAt closes) (period + 1)
        (closes.length - (period + 1))).length := by
      rw [tailFrom_length]; omega
    constructor
    · unfold avgGainList
      rw [pyScan_getD_succ _ _ _ _ hk2, tailFrom_getD _ _ _ _ (by omega)]
      rfl
    · unfold avgLossList
      rw [pyScan_getD_succ _ _ _ _ hk3, tailFrom_getD _ _ _ _ (by omega)]
      rfl
  · intro k hk
    have hlen2 : (calculate_rsi closes period).length
        = min (avgGainList closes period).length (avgLossList closes period).length := by
      unfold calculate_rsi
      rw [List.length_zipWith]
    rw [hlen2] at hk
    unfold calculate_rsi
    rw [zipWith_getD _ _ _ _ (by omega) (by omega)]

/-- Claim C4, closed instance: the RSI output at dataframe index 3 of the
series `[100, 101, 103, 102]` with period 2 matches the quotient formula. -/
theorem calculate_rsi_spec_witness :
    (calculate_rsi c4Closes 2).getD 1 0
      = 100 - 100 / (1 + (avgGainList c4Closes 2).getD 1 0
          / (avgLossList c4Closes 2).getD 1 0) :=
  (calculate_rsi_spec c4Closes 2 (by decide) (by decide)).2.2 1 (by decide)

/-- Claim C5: the generated buy flag holds exactly on oversold RSI, an upward
MACD cross or an upward moving-average cross; the sell flag is the mirror;
the strong flags hold exactly on the simultaneous three-way conditions. -/
theorem generate_signals_spec (current previous : IndicatorRow) :
    ((generate_signals current previous).buy = true ↔
      (current.rsi < 30
        ∨ (current.macd > current.macd_signal ∧ previous.macd ≤ previous.macd_signal)
        ∨ (current.ma5 > current.ma20 ∧ previous.ma5 ≤ previous.ma20)))
    ∧ ((generate_signals current previous).sell = true ↔
      (current.rsi > 70
        ∨ (current.macd < current.macd_signal ∧ previous.macd ≥ previous.macd_signal)
        ∨ (current.ma5 < current.ma20 ∧ previous.ma5 ≥ previous.ma20)))
    ∧ ((generate_signals current previous).strong_buy = true ↔
      (current.rsi < 30 ∧ current.macd > current.macd_signal
        ∧ current.ma5 > current.ma20))
    ∧ ((generate_signals current previous).strong_sell = true ↔
      (current.rsi > 70 ∧ current.macd < current.macd_signal
        ∧ current.ma5 < current.ma20)) :=
  ⟨generate_signals_buy_iff current previous,
   generate_signals_sell_iff current previous,
   generate_signals_strong_buy_iff current previous,
   generate_signals_strong_sell_iff current previous⟩

attribute [local semireducible] Rat.add Rat.mul Rat.sub Rat.inv Rat.ofScientific in
/-- Claim C6, counterexample: on a buy decision the Upbit trader orders a
notional of 90 percent of the KRW balance, here 90000, which is neither the
full default per-trade budget of 100000 nor half of it, so the sizing policy
stated for every buy decision fails on the Upbit buy path. -/
theorem upbit_buy_ignores_trade_budget :
    (upbit_buy c6Flat c6Market 100000 none 0).2 = [UAction.orderBid c6Market 90000]
    ∧ (90000 : ℚ) ≠ 100000 ∧ (90000 : ℚ) ≠ 100000 * (1 / 2) := by
  decide

/-- Claim C6, amended: in the KIS trader a strong buy allocates the full
`max_investment_per_trade` and a plain buy half of it, the ordered quantity
is the truncated quotient of the allocation by the current price, and no
order is placed when that quantity is not positive; in the Upbit trader the
buy notional is 90 percent of the KRW balance regardless of the signal, and
no order is placed when that notional is below the 5000 KRW venue minimum. -/
theorem buy_sizing_policy :
    (∀ (s : KisState) (a : AnalysisResult) (symbol : String),
        (s.positions.find? (fun p => p.symbol == symbol)).isSome = false →
        a.signals.strong_buy = true →
        (trade_symbol s a symbol).2
          = (if 0 < pyInt (s.max_investment_per_trade / (a.price : ℚ)) then
              [Action.buyOrder symbol (pyInt (s.max_investment_per_trade / (a.price : ℚ)))]
            else []))
    ∧ (∀ (s : KisState) (a : AnalysisResult) (symbol : String),
        (s.positions.find? (fun p => p.symbol == symbol)).isSome = false →
        a.signals.strong_buy = false → a.signals.buy = true →
        (trade_symbol s a symbol).2
          = (if 0 < pyInt (s.max_investment_per_trade * (1 / 2) / (a.price : ℚ)) then
              [Action.buyOrder symbol
                (pyInt (s.max_investment_per_trade * (1 / 2) / (a.price : ℚ)))]
            else []))
    ∧ (∀ (s : UpbitState) (market : String) (krw : ℚ) (fill : Option (ℚ × ℚ))
        (now : ℤ), s.position.market = "" → krw * (9 / 10) < 5000 →
        upbit_buy s market krw fill now = (s, []))
    ∧ (∀ (s : UpbitState) (market : String) (krw : ℚ) (fill : Option (ℚ × ℚ))
        (now : ℤ), s.position.market = "" → ¬ krw * (9 / 10) < 5000 →
        (upbit_buy s market krw fill now).2 = [UAction.orderBid market (krw * (9 / 10))]) := by
  refine ⟨?_, ?_, ?_, ?_⟩
  · intro s a symbol h1 h2
    unfold trade_symbol
    simp only [h1, h2, Bool.false_eq_true, if_false, if_true]
    split_ifs with h3 <;> simp [buy_domestic_stock]
  · intro s a symbol h1 h2 h3
    unfold trade_symbol
    simp only [h1, h2, h3, Bool.false_eq_true, if_false, if_true]
    split_ifs with h4 <;> simp [buy_domestic_stock]
  · intro s market krw fill now h1 h2
    unfold upbit_buy
    rw [h1]
    simp [h2]
  · intro s market krw fill now h1 h2
    unfold upbit_buy
    rw [h1]
    cases fill with
    | none => simp [h2]
    | some f => cases f with
      | mk avg vol => simp [h2]

attribute [local semireducible] Rat.add Rat.mul Rat.sub Rat.inv Rat.ofScientific in
/-- Claim C6, closed instance of the amended theorem: the flat KIS trader
buys 1000 shares at price 100 from the full 100000 budget on a strong
signal, and a flat Upbit trader with a 3000 KRW balance places no order. -/
theorem buy_sizing_policy_witness :
    (trade_symbol c6KisFlat c6Strong c6Symbol).2
      = (if 0 < pyInt (c6KisFlat.max_investment_per_trade / (c6Strong.price : ℚ)) then
          [Action.buyOrder c6Symbol
            (pyInt (c6KisFlat.max_investment_per_trade / (c6Strong.price : ℚ)))]
        else [])
    ∧ upbit_buy c6Flat c6Market 3000 none 0 = (c6Flat, []) :=
  ⟨buy_sizing_policy.1 c6KisFlat c6Strong c6Symbol (by decide) (by decide),
   buy_sizing_policy.2.2.1 c6Flat c6Market 3000 none 0 (by decide) (by decide)⟩

/-- Claim C7: every embedded EMA starts at the first input value and follows
`ema_prev + (2/(span+1)) * (value - ema_prev)`, the macd column is the
pointwise difference of the fast and slow EMAs, the signal column is the EMA
of the macd column with the signal span, and the histogram column is the
pointwise difference of the macd and signal columns. -/
theorem calculate_macd_spec (closes : List ℚ) (fast slow signalSpan : Nat)
    (hne : closes ≠ []) :
    (∀ span : Nat, (ema span closes).getD 0 0 = closes.getD 0 0)
    ∧ (∀ (span k : Nat), k + 1 < closes.length →
        (ema span closes).getD (k + 1) 0
          = (ema span closes).getD k 0
            + 2 / ((span : ℚ) + 1)
              * (closes.getD (k + 1) 0 - (ema span closes).getD k 0))
    ∧ (∀ k : Nat, k < closes.length →
        (calculate_macd closes fast slow signalSpan).1.getD k 0
          = (ema fast closes).getD k 0 - (ema slow closes).getD k 0)
    ∧ (calculate_macd closes fast slow signalSpan).2.1
        = ema signalSpan (calculate_macd closes fast slow signalSpan).1
    ∧ (∀ k : Nat, k < closes.length →
        (calculate_macd closes fast slow signalSpan).2.2.getD k 0
          = (calculate_macd closes fast slow signalSpan).1.getD k 0
            - (calculate_macd closes fast slow signalSpan).2.1.getD k 0) := by
  have hmlen : (List.zipWith (fun a b => a - b) (ema fast closes)
      (ema slow closes)).length = closes.length := by
    rw [List.length_zipWith, ema_length, ema_length, min_self]
  refine ⟨?_, ?_, ?_, rfl, ?_⟩
  · intro span
    exact ema_getD_zero span closes hne
  · intro span k hk
    rw [ema_getD_succ span closes k hk]
    rfl
  · intro k hk
    unfold calculate_macd
    exact zipWith_getD _ _ _ _ (by rw [ema_length]; omega) (by rw [ema_length]; omega)
  · intro k hk
    unfold calculate_macd
    dsimp only
    rw [zipWith_getD _ _ _ _ (by omega) (by rw [ema_length, hmlen]; omega)]

/-- Claim C7, closed instance: on the series `[1, 2, 4]` with the default
spans, the fast EMA at index 1 follows the recurrence from its index-0
value. -/
theorem calculate_macd_spec_witness :
    (ema 12 c7Closes).getD 1 0
      = (ema 12 c7Closes).getD 0 0
        + 2 / ((12 : ℚ) + 1) * (c7Closes.getD 1 0 - (ema 12 c7Closes).getD 0 0) :=
  (calculate_macd_spec c7Closes 12 26 9 (by decide)).2.1 12 0 (by decide)

/-- Claim C8: the daily reset changes nothing unless the wall-clock date is
strictly past the stored anchor date, in which case it zeroes `daily_loss`
and advances the anchor; running it twice with the same date equals running
it once, so a second call on the same day is a no-op. -/
theorem reset_daily_stats_spec (s : KisState) (today : ℤ) :
    reset_daily_stats today (reset_daily_stats today s) = reset_daily_stats today s
    ∧ (¬ s.last_reset_date < today → reset_daily_stats today s = s)
    ∧ (s.last_reset_date < today →
        (reset_daily_stats today s).daily_loss = 0
        ∧ (reset_daily_stats today s).last_reset_date = today) := by
  refine ⟨?_, ?_, ?_⟩
  · by_cases h : s.last_reset_date < today
    · simp [reset_daily_stats, h, lt_irrefl]
    · simp [reset_daily_stats, h]
  · intro h
    simp [reset_daily_stats, h]
  · intro h
    simp [reset_daily_stats, h]

/-- Claim C8, closed instance: with the anchor at day 4, a reset on day 5
zeroes the daily loss and moves the anchor to day 5. -/
theorem reset_daily_stats_spec_witness :
    (reset_daily_stats 5 c8State).daily_loss = 0
    ∧ (reset_daily_stats 5 c8State).last_reset_date = 5 :=
  (reset_daily_stats_spec c8State 5).2.2 (by decide)

/-- Claim C9: with the notifier enabled, a shutdown message always reaches
the delivery attempt whatever the clock says, while a non-shutdown message
inside the quiet window is suppressed before any delivery attempt. -/
theorem send_message_spec :
    (∀ quietStart quietEnd now : Nat,
        send_message true true quietStart quietEnd now = SendOutcome.attempted)
    ∧ (∀ quietStart quietEnd now : Nat,
        is_quiet_time false quietStart quietEnd now = true →
        send_message true false quietStart quietEnd now
          = SendOutcome.quietSuppressed) := by
  constructor
  · intro qs qe now
    unfold send_message is_quiet_time
    simp
  · intro qs qe now h
    unfold send_message
    rw [h]
    rfl

/-- Claim C9, closed instance: with quiet hours 22:00 to 08:00, at 23:00 a
shutdown message is attempted and an ordinary message is suppressed. -/
theorem send_message_spec_witness :
    send_message true true 79200 28800 82800 = SendOutcome.attempted
    ∧ send_message true false 79200 28800 82800 = SendOutcome.quietSuppressed :=
  ⟨send_message_spec.1 79200 28800 82800,
   send_message_spec.2 79200 28800 82800 (by decide)⟩

/-- Claim C10: a strong buy signal always comes with the plain buy flag set,
and a strong sell signal with the plain sell flag set, because the RSI
conjunct of each strong condition also sets the plain flag. -/
theorem strong_signals_imply_plain (current previous : IndicatorRow) :
    ((generate_signals current previous).strong_buy = true →
      (generate_signals current previous).buy = true)
    ∧ ((generate_signals current previous).strong_sell = true →
      (generate_signals current previous).sell = true) := by
  constructor
  · intro h
    obtain ⟨h1, h2, h3⟩ := (generate_signals_strong_buy_iff current previous).mp h
    exact (generate_signals_buy_iff current previous).mpr (Or.inl h1)
  · intro h
    obtain ⟨h1, h2, h3⟩ := (generate_signals_strong_sell_iff current previous).mp h
    exact (generate_signals_sell_iff current previous).mpr (Or.inl h1)

/-- Claim C10, closed instance: a row with RSI 20, positive MACD gap and MA5
above MA20 raises strong buy together with plain buy. -/
theorem strong_signals_imply_plain_witness :
    (generate_signals c10Current c10Previous).buy = true :=
  (strong_signals_imply_plain c10Current c10Previous).1 (by decide)

end JATS
